import Mathlib

/-!
Shallow embedding of the `doi_corrector` pipeline scripts
(`Scripts/citing_doi_matcher.py`, `Scripts/reference_formatter_for_crossref.py`,
`Scripts/cited_articles_metadata_gatherer.py`, `Scripts/citation_finder.py`,
`Scripts/new_doi_validator.py`) and proofs about them.

Python strings are modelled as `List Char` where character-level scanning
matters (regex search, `str.replace`, `str.strip`) and as `String`
elsewhere.  Machine-level details (network I/O) are modelled by passing the
sequence of responses the network would produce as an explicit argument.
-/

namespace DoiCorrector

/-! ### Character classes (ASCII fragment of Python semantics) -/

/-- Python whitespace for `str.strip` and the regex class `\s`
(space, tab, newline, carriage return, vertical tab, form feed). -/
def isSpaceChar (c : Char) : Bool :=
  c = ' ' || c = '\t' || c = '\n' || c = '\r' || c = Char.ofNat 11 || c = Char.ofNat 12

/-- Python regex word character (`\w`, used by `\b`): letters, digits, underscore. -/
def isWordChar (c : Char) : Bool :=
  c.isAlpha || c.isDigit || c = '_'

/-! ### Generic substring containment (Python `in` on strings) -/

/-- `listContains pat s` is Python `pat in s` on strings: `pat` occurs as a
contiguous substring of `s`. -/
def listContains (pat : List Char) : List Char → Bool
  | [] => pat.isPrefixOf ([] : List Char)
  | c :: rest => pat.isPrefixOf (c :: rest) || listContains pat rest

/-! ## `citing_doi_matcher.py`

`DOIMatcher.load_csv` cleans the `id` column with
`df["id"].str.replace("doi:", "", regex=False)`: pandas/Python `str.replace`
deletes every non-overlapping occurrence of `"doi:"` scanning left to right.
`DOIMatcher.match_dois` nests over the JSON entries and their
`referenced_dois`, appending `[entry_doi, referenced_doi]` whenever the
referenced DOI is in the CSV-derived set. -/

/-- The pattern deleted by `load_csv`, as a character list. -/
def doiPat : List Char := ['d', 'o', 'i', ':']

/-- Does the string start with the literal `doi:`? -/
def hasDoiHead (s : List Char) : Bool := doiPat.isPrefixOf s

/-- The per-id cleaning step of `DOIMatcher.load_csv`:
Python `s.replace("doi:", "")`, scanning left to right and deleting each
non-overlapping occurrence of `doi:` (the scan resumes after the deleted
occurrence). -/
def cleanId : List Char → List Char
  | 'd' :: 'o' :: 'i' :: ':' :: rest => cleanId rest
  | c :: rest => c :: cleanId rest
  | [] => []

theorem hasDoiHead_iff {s : List Char} :
    hasDoiHead s = true ↔ ∃ t, s = 'd' :: 'o' :: 'i' :: ':' :: t := by
  constructor
  · intro h
    rcases s with _ | ⟨c1, _ | ⟨c2, _ | ⟨c3, _ | ⟨c4, t⟩⟩⟩⟩
    · simp [hasDoiHead, doiPat, List.isPrefixOf] at h
    · simp [hasDoiHead, doiPat, List.isPrefixOf] at h
    · simp [hasDoiHead, doiPat, List.isPrefixOf] at h
    · simp [hasDoiHead, doiPat, List.isPrefixOf] at h
    · refine ⟨t, ?_⟩
      simp only [hasDoiHead, doiPat, List.isPrefixOf, Bool.and_eq_true,
        beq_iff_eq] at h
      obtain ⟨h1, h2, h3, h4, -⟩ := h
      rw [← h1, ← h2, ← h3, ← h4]
  · rintro ⟨t, rfl⟩
    simp [hasDoiHead, doiPat, List.isPrefixOf]

theorem cleanId_doiHead (t : List Char) :
    cleanId ('d' :: 'o' :: 'i' :: ':' :: t) = cleanId t := rfl

theorem cleanId_cons_neg {c : Char} {rest : List Char}
    (h : hasDoiHead (c :: rest) = false) :
    cleanId (c :: rest) = c :: cleanId rest := by
  rw [cleanId.eq_def]
  split
  · rename_i t heq
    exfalso
    have : hasDoiHead (c :: rest) = true := hasDoiHead_iff.mpr ⟨t, heq⟩
    rw [this] at h
    cases h
  · rename_i c' rest' _ heq
    cases heq
    rfl
  · rename_i heq
    cases heq

/-- Index of the first occurrence of `doi:` in a string, if any.  This is a
specification-side definition (not part of the source) used to state what
"deleting every occurrence" means independently of `cleanId`. -/
def firstDoiIdx (s : List Char) : Option Nat :=
  match s with
  | [] => none
  | _ :: rest => if hasDoiHead s then some 0 else (firstDoiIdx rest).map (· + 1)

theorem firstDoiIdx_cons (c : Char) (rest : List Char) :
    firstDoiIdx (c :: rest) =
      if hasDoiHead (c :: rest) then some 0
      else (firstDoiIdx rest).map (· + 1) := rfl

/-- A true `hasDoiHead` forces at least four characters. -/
theorem hasDoiHead_length {s : List Char} (h : hasDoiHead s = true) :
    4 ≤ s.length := by
  have hlen : doiPat.length ≤ s.length :=
    (List.isPrefixOf_iff_prefix.mp h).length_le
  simpa [doiPat] using hlen

/-- `firstDoiIdx` never points past the string (there must be room for the
four pattern characters). -/
theorem firstDoiIdx_add_four_le :
    ∀ s i, firstDoiIdx s = some i → i + 4 ≤ s.length := by
  intro s
  induction s with
  | nil => intro i h; simp [firstDoiIdx] at h
  | cons c rest ih =>
    intro i h
    rw [firstDoiIdx_cons] at h
    by_cases hd : hasDoiHead (c :: rest)
    · simp only [hd, if_true, Option.some.injEq] at h
      subst h
      exact hasDoiHead_length hd
    · simp only [hd, if_false] at h
      obtain ⟨j, hj, hji⟩ := Option.map_eq_some'.mp h
      have := ih j hj
      simp only [List.length_cons]
      omega

/-- "Delete every occurrence of `doi:`", written from the claim's words:
repeatedly locate the first occurrence and remove it, keeping everything
before it, until no occurrence remains. -/
def claimRemoveAll (s : List Char) : List Char :=
  match h : firstDoiIdx s with
  | none => s
  | some i => s.take i ++ claimRemoveAll (s.drop (i + 4))
termination_by s.length
decreasing_by
  have h4 := firstDoiIdx_add_four_le s i h
  simp only [List.length_drop]
  omega

/-- Only-strip-a-leading-prefix cleaning, written for contrast with the
behaviour the claim attributes to the source. -/
def stripLeadingDoi (s : List Char) : List Char :=
  if hasDoiHead s then s.drop 4 else s

theorem claimRemoveAll_of_none {s : List Char} (h : firstDoiIdx s = none) :
    claimRemoveAll s = s := by
  rw [claimRemoveAll]
  split
  · rfl
  · rename_i i hi
    rw [h] at hi
    cases hi

theorem claimRemoveAll_of_some {s : List Char} {i : Nat}
    (h : firstDoiIdx s = some i) :
    claimRemoveAll s = s.take i ++ claimRemoveAll (s.drop (i + 4)) := by
  rw [claimRemoveAll]
  split
  · rename_i hn
    rw [h] at hn
    cases hn
  · rename_i j hj
    rw [h] at hj
    cases hj
    rfl

/-- Strings with no first `doi:` occurrence are left unchanged by `cleanId`. -/
theorem cleanId_of_firstDoiIdx_none :
    ∀ s : List Char, firstDoiIdx s = none → cleanId s = s := by
  intro s
  induction s with
  | nil => intro _; rfl
  | cons c rest ih =>
    intro h
    rw [firstDoiIdx_cons] at h
    by_cases hd : hasDoiHead (c :: rest)
    · simp [hd] at h
    · rw [if_neg hd, Option.map_eq_none'] at h
      rw [cleanId_cons_neg (by simpa using hd), ih h]

/-- `cleanId` computes exactly the claim-side "delete every occurrence"
function. -/
theorem cleanId_eq_claimRemoveAll (s : List Char) :
    cleanId s = claimRemoveAll s := by
  have key : ∀ n (s : List Char), s.length ≤ n → cleanId s = claimRemoveAll s := by
    intro n
    induction n with
    | zero =>
      intro s hs
      have : s = [] := List.eq_nil_of_length_eq_zero (Nat.le_zero.mp hs)
      subst this
      rw [claimRemoveAll_of_none (s := []) rfl]
      rfl
    | succ n ih =>
      intro s hs
      rcases s with _ | ⟨c, rest⟩
      · rw [claimRemoveAll_of_none (s := []) rfl]
        rfl
      by_cases hd : hasDoiHead (c :: rest)
      · obtain ⟨t, ht⟩ := hasDoiHead_iff.mp hd
        have hfi : firstDoiIdx (c :: rest) = some 0 := by
          rw [firstDoiIdx_cons, if_pos hd]
        rw [claimRemoveAll_of_some hfi]
        rw [ht] at hs ⊢
        have hdrop : ('d' :: 'o' :: 'i' :: ':' :: t).drop (0 + 4) = t := rfl
        rw [cleanId_doiHead, hdrop]
        simp only [List.take_zero, List.nil_append]
        apply ih
        simp only [List.length_cons] at hs
        omega
      · rw [cleanId_cons_neg (by simpa using hd)]
        cases hfi : firstDoiIdx rest with
        | none =>
          have h1 : firstDoiIdx (c :: rest) = none := by
            rw [firstDoiIdx_cons, if_neg hd, hfi]
            rfl
          rw [claimRemoveAll_of_none h1,
            cleanId_of_firstDoiIdx_none rest hfi]
        | some j =>
          have h1 : firstDoiIdx (c :: rest) = some (j + 1) := by
            rw [firstDoiIdx_cons, if_neg hd, hfi]
            rfl
          rw [claimRemoveAll_of_some h1]
          have htake : (c :: rest).take (j + 1) = c :: rest.take j := rfl
          have hdrop : (c :: rest).drop (j + 1 + 4) = rest.drop (j + 4) := by
            show (c :: rest).drop (j + 4 + 1) = rest.drop (j + 4)
            rw [List.drop_succ_cons]
          rw [htake, hdrop, List.cons_append]
          have hrest : cleanId rest = claimRemoveAll rest := by
            apply ih
            simp only [List.length_cons] at hs
            omega
          rw [hrest, claimRemoveAll_of_some hfi]
  exact key s.length s le_rfl

/-- A string that nowhere contains `doi:` is a fixed point of `cleanId`. -/
theorem cleanId_of_not_contains :
    ∀ s : List Char, listContains doiPat s = false → cleanId s = s := by
  intro s
  induction s with
  | nil => intro _; rfl
  | cons c rest ih =>
    intro h
    rw [listContains] at h
    simp only [Bool.or_eq_false_iff] at h
    obtain ⟨h1, h2⟩ := h
    have hd : hasDoiHead (c :: rest) = false := h1
    rw [cleanId_cons_neg hd, ih h2]

/-- `DOIMatcher.match_dois`: for each `(entry_doi, referenced_dois)` item of
the JSON data (in order), for each referenced DOI (in order), emit the pair
when the referenced DOI belongs to the CSV-derived DOI set. -/
def match_dois (doi_set : List String) (json_data : List (String × List String)) :
    List (String × String) :=
  json_data.flatMap fun e =>
    (e.2.filter fun r => decide (r ∈ doi_set)).map fun r => (e.1, r)

theorem mem_matchEntry_iff {dois : List String} {k c r : String}
    {refs : List String} :
    (c, r) ∈ (refs.filter fun x => decide (x ∈ dois)).map (fun x => (k, x)) ↔
      k = c ∧ r ∈ refs ∧ r ∈ dois := by
  simp only [List.mem_map, List.mem_filter, decide_eq_true_eq, Prod.mk.injEq]
  constructor
  · rintro ⟨x, ⟨hx, hxd⟩, hk, hr⟩
    subst hr
    exact ⟨hk, hx, hxd⟩
  · rintro ⟨hk, hr, hrd⟩
    exact ⟨r, ⟨hr, hrd⟩, hk, rfl⟩

theorem pair_beq_iff {a b c d : String} :
    ((a, b) == (c, d)) = (a == c && b == d) := rfl

theorem count_matchEntry (dois : List String) (c r k : String)
    (refs : List String) :
    ((refs.filter fun x => decide (x ∈ dois)).map (fun x => (k, x))).count (c, r)
      = if k = c ∧ r ∈ dois then refs.count r else 0 := by
  induction refs with
  | nil => simp
  | cons a tl ih =>
    rw [List.filter_cons]
    by_cases had : a ∈ dois
    · rw [if_pos (by simpa using had), List.map_cons, List.count_cons, ih,
        List.count_cons, pair_beq_iff]
      by_cases hk : k = c
      · by_cases har : a = r
        · subst har
          subst hk
          simp [had]
        · simp [hk, har]
      · simp [hk]
    · rw [if_neg (by simpa using had), ih, List.count_cons]
      by_cases hk : k = c
      · by_cases hrd : r ∈ dois
        · have har : (a == r) = false := by
            rw [beq_eq_false_iff_ne]
            intro hcontra
            subst hcontra
            exact had hrd
          simp [hk, hrd, har]
        · simp [hk, hrd]
      · simp [hk]

/-- Claim C1, counterexample: with corpus `{"d"}` and one citing entry whose
reference list holds `"d"` twice, `match_dois` emits the edge `("c", "d")`
twice — the output is not deduplicated by (citing, cited) pair. -/
theorem match_dois_not_deduplicated :
    1 < (match_dois ["d"] [("c", ["d", "d"])]).count ("c", "d") := by decide

/-- Claim C1, amended: `match_dois` emits the edge `(citing, ref)` exactly
when some entry for `citing` lists `ref` among its referenced DOIs and `ref`
is a member of the corpus; the output is not deduplicated — the edge occurs
once per occurrence of `ref` in the entries for `citing`. -/
theorem match_dois_emits_iff_member :
    ∀ (doi_set : List String) (json_data : List (String × List String))
      (c r : String),
      ((c, r) ∈ match_dois doi_set json_data ↔
        r ∈ doi_set ∧ ∃ refs, (c, refs) ∈ json_data ∧ r ∈ refs) ∧
      (match_dois doi_set json_data).count (c, r) =
        (json_data.map fun e =>
          if e.1 = c ∧ r ∈ doi_set then e.2.count r else 0).sum := by
  intro dois json c r
  induction json with
  | nil => simp [match_dois]
  | cons e tl ih =>
    obtain ⟨ih1, ih2⟩ := ih
    have hcons : match_dois dois (e :: tl) =
        ((e.2.filter fun x => decide (x ∈ dois)).map fun x => (e.1, x)) ++
          match_dois dois tl := by
      simp [match_dois]
    constructor
    · rw [hcons]
      rw [List.mem_append, mem_matchEntry_iff, ih1]
      constructor
      · rintro (⟨hk, hr, hrd⟩ | ⟨hrd, refs, hmem, hr⟩)
        · refine ⟨hrd, e.2, ?_, hr⟩
          rw [← hk]
          exact List.mem_cons_self _ _
        · exact ⟨hrd, refs, List.mem_cons_of_mem _ hmem, hr⟩
      · rintro ⟨hrd, refs, hmem, hr⟩
        rcases List.mem_cons.mp hmem with heq | htl
        · left
          have h1 : e.1 = c := by rw [← heq]
          have h2 : refs = e.2 := by rw [← heq]
          exact ⟨h1, h2 ▸ hr, hrd⟩
        · exact Or.inr ⟨hrd, refs, htl, hr⟩
    · rw [hcons, List.count_append, count_matchEntry, ih2, List.map_cons,
        List.sum_cons]

/-- Claim C7, counterexample: canonicalization as implemented (deletion of
every occurrence of the lowercase literal `doi:`) is case-sensitive, so the
two quoted inputs do not canonicalize equally; it is not idempotent
(deleting an occurrence can juxtapose a new one); and distinct identifiers
can share a canonical form. -/
theorem canonicalize_counterexample :
    cleanId "DOI:10.1000/ABC".toList ≠ cleanId "https://doi.org/10.1000/abc".toList ∧
    cleanId (cleanId "dodoi:i:".toList) ≠ cleanId "dodoi:i:".toList ∧
    (cleanId "doi:x".toList = cleanId "x".toList ∧ "doi:x" ≠ "x") := by
  decide

/-- Claim C7, amended: the canonicalization actually implemented by
`load_csv` is the case-sensitive deletion of every occurrence of `doi:`; it
is idempotent exactly on inputs whose cleaned form no longer contains
`doi:` anywhere. -/
theorem canonicalize_idempotent_when_clean (s : List Char)
    (h : listContains doiPat (cleanId s) = false) :
    cleanId (cleanId s) = cleanId s :=
  cleanId_of_not_contains (cleanId s) h

/-- Witness for `canonicalize_idempotent_when_clean` at `"doi:10.1000/abc"`. -/
theorem canonicalize_idempotent_when_clean_witness :
    listContains doiPat (cleanId "doi:10.1000/abc".toList) = false ∧
    cleanId (cleanId "doi:10.1000/abc".toList) = cleanId "doi:10.1000/abc".toList :=
  ⟨by decide, canonicalize_idempotent_when_clean _ (by decide)⟩

/-- Claim C9: the cleaning step of `load_csv` deletes every occurrence of
`doi:` anywhere in the id string — `cleanId` coincides with the
specification-side `claimRemoveAll`, which repeatedly removes the first
occurrence — and an identifier whose suffix contains `doi:` is altered
beyond what stripping a leading prefix would do. -/
theorem load_csv_removes_every_occurrence :
    (∀ s : List Char, cleanId s = claimRemoveAll s) ∧
    cleanId "10.1000/xdoi:y".toList = "10.1000/xy".toList ∧
    cleanId "doi:10.1000/xdoi:y".toList ≠ stripLeadingDoi "doi:10.1000/xdoi:y".toList :=
  ⟨cleanId_eq_claimRemoveAll, by decide, by decide⟩

/-! ## `reference_formatter_for_crossref.py`

`ReferenceProcessor.extract_reference_info` runs two regex searches,
`re.search(r'\bPMID[:\s]?(\d+)\b', reference)` and
`re.search(r'(10\.\d{4,9}/[^\s:,\);]+)(?=PMID|$)', reference)`, then
falls back to a title taken from after the first closing parenthesis.
The two patterns are compiled here by hand into deterministic scanners
that reproduce the leftmost-search, greedy-with-backtracking semantics of
Python `re` for these particular patterns. -/

/-- Characters allowed inside the DOI suffix class `[^\s:,);]`. -/
def allowedDoiChar (c : Char) : Bool :=
  !(isSpaceChar c || c = ':' || c = ',' || c = ')' || c = ';')

/-- The digit run `(\d+)` followed by the word boundary `\b`: succeeds with
the maximal digit run when it is non-empty and the character after it is not
a word character (shorter runs are never viable, since they would be
followed by a digit). -/
def pmidDigits (t : List Char) : Option (List Char) :=
  let ds := t.takeWhile Char.isDigit
  if ds.isEmpty then none
  else
    match t.drop ds.length with
    | [] => some ds
    | c :: _ => if isWordChar c then none else some ds

/-- One attempt of `\bPMID[:\s]?(\d+)\b` anchored at the current position,
`prev` being the character before it (`none` at the string start).  The
optional separator class `[:\s]?` is greedy: the attempt that consumes a
separator is tried first. -/
def matchPmidAt (prev : Option Char) (s : List Char) : Option (List Char) :=
  match s with
  | 'P' :: 'M' :: 'I' :: 'D' :: rest =>
      match prev with
      | some p => if isWordChar p then none else
          (match rest with
           | c :: r2 =>
               if c = ':' || isSpaceChar c then
                 match pmidDigits r2 with
                 | some ds => some ds
                 | none => pmidDigits rest
               else pmidDigits rest
           | [] => none)
      | none =>
          (match rest with
           | c :: r2 =>
               if c = ':' || isSpaceChar c then
                 match pmidDigits r2 with
                 | some ds => some ds
                 | none => pmidDigits rest
               else pmidDigits rest
           | [] => none)
  | _ => none

/-- `re.search` for the PMID pattern: try every start position from left to
right, tracking the preceding character for the word boundary. -/
def pmidSearchAux (prev : Option Char) (s : List Char) : Option (List Char) :=
  match matchPmidAt prev s with
  | some ds => some ds
  | none =>
      match s with
      | [] => none
      | c :: rest => pmidSearchAux (some c) rest

/-- `re.search(r'\bPMID[:\s]?(\d+)\b', s)`, returning group 1. -/
def pmidSearch (s : List Char) : Option (List Char) :=
  pmidSearchAux none s

/-- The lookahead `(?=PMID|$)`: the rest of the string starts with `PMID`,
is empty, or is a single final newline (Python `$` also matches just before
a trailing newline). -/
def lookAheadOk (l : List Char) : Bool :=
  (['P', 'M', 'I', 'D']).isPrefixOf l || l.isEmpty || l = ['\n']

/-- Greedy backtracking over the suffix-class run: try keeping `j` characters
of `run` for `j = jmax, jmax-1, ..., 1` and return the first `j` whose
remainder satisfies the lookahead. -/
def pickJ (run rem : List Char) : Nat → Option Nat
  | 0 => none
  | j + 1 =>
      if lookAheadOk (run.drop (j + 1) ++ rem) then some (j + 1)
      else pickJ run rem j

/-- One attempt of `(10\.\d{4,9}/[^\s:,\);]+)(?=PMID|$)` anchored at the
current position.  The counted digit class backtracks, but only the maximal
digit run can be followed by `/`, so it reduces to a length test. -/
def matchDoiAt (s : List Char) : Option (List Char) :=
  match s with
  | '1' :: '0' :: '.' :: rest =>
      let ds := rest.takeWhile Char.isDigit
      if 4 ≤ ds.length ∧ ds.length ≤ 9 then
        match rest.drop ds.length with
        | '/' :: t =>
            let run := t.takeWhile allowedDoiChar
            let rem := t.drop run.length
            match pickJ run rem run.length with
            | some j => some ('1' :: '0' :: '.' :: (ds ++ '/' :: run.take j))
            | none => none
        | _ => none
      else none
  | _ => none

/-- `re.search` for the DOI pattern: try every start position from left to
right. -/
def doiSearchAux (s : List Char) : Option (List Char) :=
  match matchDoiAt s with
  | some d => some d
  | none =>
      match s with
      | [] => none
      | _ :: rest => doiSearchAux rest

/-- `re.search(r'(10\.\d{4,9}/[^\s:,\);]+)(?=PMID|$)', s)`,
returning group 0. -/
def doiSearch (s : List Char) : Option (List Char) :=
  doiSearchAux s

/-- Python `str.strip()` restricted to ASCII whitespace. -/
def pyStripChars (s : List Char) : List Char :=
  ((s.dropWhile isSpaceChar).reverse.dropWhile isSpaceChar).reverse

/-- `reference[reference.find(")") + 1:]`: everything after the first
closing parenthesis, or the whole string when there is none (`find`
returns `-1`, so the slice starts at `0`). -/
def afterFirstParen (s : List Char) : List Char :=
  if s.contains ')' then (s.dropWhile fun c => !(c == ')')).tail else s

/-- The result dictionary of `extract_reference_info`: at most one of the
two shapes `{pmid?/doi?}` and `{title}` is populated. -/
structure RefInfo where
  pmid : Option String
  doi : Option String
  title : Option String
deriving DecidableEq, Repr

/-- `ReferenceProcessor.extract_reference_info`: search for PMID and DOI;
when neither matches (matched groups are never empty, so Python truthiness
is `isSome`), fall back to the title after the first `)`, stripped. -/
def extract_reference_info (reference : List Char) : RefInfo :=
  let pmid := pmidSearch reference
  let doi := doiSearch reference
  match pmid, doi with
  | none, none =>
      { pmid := none, doi := none
        title := some (String.mk (pyStripChars (afterFirstParen reference))) }
  | _, _ => { pmid := pmid.map String.mk, doi := doi.map String.mk, title := none }

theorem matchPmidAt_not_p {prev : Option Char} {c : Char} {rest : List Char}
    (h : isSpaceChar c = true) :
    matchPmidAt prev (c :: rest) = none := by
  rw [matchPmidAt.eq_def]
  split
  · rename_i heq
    rw [List.cons.injEq] at heq
    obtain ⟨hc, -⟩ := heq
    subst hc
    simp [isSpaceChar] at h
  · rfl

theorem pmidSearchAux_all_space :
    ∀ (s : List Char) (prev : Option Char),
      (∀ c ∈ s, isSpaceChar c = true) → pmidSearchAux prev s = none := by
  intro s
  induction s with
  | nil =>
    intro prev _
    rfl
  | cons c rest ih =>
    intro prev h
    have hc : isSpaceChar c = true := h c (List.mem_cons_self _ _)
    rw [pmidSearchAux, matchPmidAt_not_p hc]
    exact ih (some c) fun x hx => h x (List.mem_cons_of_mem _ hx)

theorem matchDoiAt_not_one {c : Char} {rest : List Char}
    (h : isSpaceChar c = true) :
    matchDoiAt (c :: rest) = none := by
  rw [matchDoiAt.eq_def]
  split
  · rename_i heq
    rw [List.cons.injEq] at heq
    obtain ⟨hc, -⟩ := heq
    subst hc
    simp [isSpaceChar] at h
  · rfl

theorem doiSearchAux_all_space :
    ∀ s : List Char, (∀ c ∈ s, isSpaceChar c = true) → doiSearchAux s = none := by
  intro s
  induction s with
  | nil => intro _; rfl
  | cons c rest ih =>
    intro h
    have hc : isSpaceChar c = true := h c (List.mem_cons_self _ _)
    rw [doiSearchAux, matchDoiAt_not_one hc]
    exact ih fun x hx => h x (List.mem_cons_of_mem _ hx)

theorem afterFirstParen_all_space {s : List Char}
    (h : ∀ c ∈ s, isSpaceChar c = true) : afterFirstParen s = s := by
  rw [afterFirstParen, if_neg]
  intro hcon
  have hmem : ')' ∈ s := by
    have := List.mem_of_elem_eq_true hcon
    exact this
  have := h ')' hmem
  simp [isSpaceChar] at this

theorem pyStripChars_all_space {s : List Char}
    (h : ∀ c ∈ s, isSpaceChar c = true) : pyStripChars s = [] := by
  rw [pyStripChars]
  have h1 : s.dropWhile isSpaceChar = [] := List.dropWhile_eq_nil_iff.mpr h
  rw [h1]
  rfl

/-- Claim C2: `extract_reference_info` is total on strings and always
returns exactly one of the two result shapes — identifiers with no title,
or a title with no identifiers — and on all-whitespace input (including the
empty string) it returns a title-only result whose title is `""`. -/
theorem extract_total_shape (reference : List Char) :
    (((extract_reference_info reference).title = none ∧
        ((extract_reference_info reference).pmid ≠ none ∨
          (extract_reference_info reference).doi ≠ none)) ∨
      ((extract_reference_info reference).pmid = none ∧
        (extract_reference_info reference).doi = none ∧
        (extract_reference_info reference).title ≠ none)) ∧
    ((∀ c ∈ reference, isSpaceChar c = true) →
      extract_reference_info reference =
        { pmid := none, doi := none, title := some "" }) := by
  constructor
  · cases hp : pmidSearch reference <;> cases hd : doiSearch reference <;>
      simp [extract_reference_info, hp, hd]
  · intro h
    have hp : pmidSearch reference = none := pmidSearchAux_all_space reference none h
    have hd : doiSearch reference = none := doiSearchAux_all_space reference h
    rw [extract_reference_info]
    rw [show pmidSearch reference = none from hp,
      show doiSearch reference = none from hd]
    rw [afterFirstParen_all_space h, pyStripChars_all_space h]

/-- Witness for `extract_total_shape` at the two-space string. -/
theorem extract_total_shape_witness :
    (∀ c ∈ ("  ".toList : List Char), isSpaceChar c = true) ∧
    extract_reference_info "  ".toList =
      { pmid := none, doi := none, title := some "" } :=
  ⟨by decide, (extract_total_shape "  ".toList).2 (by decide)⟩

/-- Claim C3: on `"Smith J (2020) PMID:12345 10.1000/xyz123"` the parser
returns pmid `"12345"` and doi `"10.1000/xyz123"`; the earlier PMID token is
not absorbed into the DOI capture. -/
theorem extract_smith_example :
    extract_reference_info "Smith J (2020) PMID:12345 10.1000/xyz123".toList =
      { pmid := some "12345", doi := some "10.1000/xyz123", title := none } := by
  decide

/-- Claim C4, counterexample: `"10.1000/abc extra"` contains the DOI-shaped
substring `10.1000/abc`, yet the parser captures no DOI at all — the
lookahead `(?=PMID|$)` rejects a DOI followed by a space and prose, and the
whole string falls through to the title branch. -/
theorem doi_before_prose_not_captured :
    (extract_reference_info "10.1000/abc extra".toList).doi = none ∧
    extract_reference_info "10.1000/abc extra".toList =
      { pmid := none, doi := none, title := some "10.1000/abc extra" } := by
  decide

theorem pickJ_full (ts : List Char) (hne : ts ≠ []) :
    pickJ ts [] ts.length = some ts.length := by
  rcases ts with _ | ⟨a, tl⟩
  · exact absurd rfl hne
  · have hlen : (a :: tl).length = tl.length + 1 := rfl
    rw [hlen, pickJ]
    have hdrop : (a :: tl).drop (tl.length + 1) = [] :=
      List.drop_length (a :: tl)
    rw [hdrop]
    rfl

/-- Claim C4, amended: a DOI-shaped substring is captured only when the
match can end immediately before a `PMID` token or at the string end; in
particular a reference consisting of exactly `10.` followed by 4–9 digits,
a `/`, and a non-empty run of allowed suffix characters reaching the end of
the string has that entire DOI returned in the `doi` field. -/
theorem doi_at_string_end_is_captured (ds ts : List Char)
    (h4 : 4 ≤ ds.length) (h9 : ds.length ≤ 9)
    (hds : ∀ c ∈ ds, Char.isDigit c = true)
    (hne : ts ≠ []) (hts : ∀ c ∈ ts, allowedDoiChar c = true) :
    (extract_reference_info ('1' :: '0' :: '.' :: (ds ++ '/' :: ts))).doi =
      some (String.mk ('1' :: '0' :: '.' :: (ds ++ '/' :: ts))) := by
  have htw : (ds ++ '/' :: ts).takeWhile Char.isDigit = ds := by
    rw [List.takeWhile_append_of_pos hds, List.takeWhile_cons_of_neg]
    · simp
    · decide
  have hrun : ts.takeWhile allowedDoiChar = ts :=
    List.takeWhile_eq_self_iff.mpr hts
  have hm : matchDoiAt ('1' :: '0' :: '.' :: (ds ++ '/' :: ts)) =
      some ('1' :: '0' :: '.' :: (ds ++ '/' :: ts)) := by
    rw [matchDoiAt]
    simp only [htw, List.drop_left, hrun, List.drop_length]
    rw [if_pos (show 4 ≤ ds.length ∧ ds.length ≤ 9 from ⟨h4, h9⟩)]
    rw [pickJ_full ts hne]
    simp [List.take_length]
  have hdoi : doiSearch ('1' :: '0' :: '.' :: (ds ++ '/' :: ts)) =
      some ('1' :: '0' :: '.' :: (ds ++ '/' :: ts)) := by
    rw [doiSearch, doiSearchAux, hm]
  rw [extract_reference_info]
  cases hp : pmidSearch ('1' :: '0' :: '.' :: (ds ++ '/' :: ts)) <;>
    simp [hp, hdoi]

/-- Witness for `doi_at_string_end_is_captured` at `"10.1000/xyz"`. -/
theorem doi_at_string_end_is_captured_witness :
    (4 ≤ (['1', '0', '0', '0'] : List Char).length ∧
      (['1', '0', '0', '0'] : List Char).length ≤ 9 ∧
      (∀ c ∈ (['1', '0', '0', '0'] : List Char), Char.isDigit c = true) ∧
      (['x', 'y', 'z'] : List Char) ≠ [] ∧
      (∀ c ∈ (['x', 'y', 'z'] : List Char), allowedDoiChar c = true)) ∧
    (extract_reference_info
        ('1' :: '0' :: '.' :: (['1', '0', '0', '0'] ++ '/' :: ['x', 'y', 'z']))).doi =
      some (String.mk
        ('1' :: '0' :: '.' :: (['1', '0', '0', '0'] ++ '/' :: ['x', 'y', 'z']))) :=
  ⟨by decide,
    doi_at_string_end_is_captured ['1', '0', '0', '0'] ['x', 'y', 'z']
      (by decide) (by decide) (by decide) (by decide) (by decide)⟩

/-! ## `new_doi_validator.py`

`DOIValidator.validate_doi` lower-cases title/author/publisher from both
sources and reports `valid = title_match or (author_match and
publisher_match)`.  The OpenCitations record is modelled as the three
strings its `.get(key, "")` calls produce; the CrossRef record as its
title list, `(given, family)` author pairs and publisher string (the
source indexes `author["given"]`/`author["family"]` directly, so the pairs
are total here). -/

structure OcMeta where
  title : String
  author : String
  publisher : String
deriving DecidableEq, Repr

structure CrMeta where
  title : List String
  author : List (String × String)
  publisher : String
deriving DecidableEq, Repr

structure ValidationResult where
  doi : String
  opencitations_title : String
  crossref_title : String
  title_match : Bool
  opencitations_author : String
  crossref_author : String
  author_match : Bool
  opencitations_publisher : String
  crossref_publisher : String
  publisher_match : Bool
  valid : Bool
deriving DecidableEq, Repr

/-- Python `str.lower()` (ASCII case mapping), written over the character
list so it evaluates by kernel reduction. -/
def pyLower (s : String) : String :=
  String.mk (s.toList.map Char.toLower)

/-- `DOIValidator.validate_doi`.  `author_match` is Python
`opencitations_author in crossref_author if opencitations_author else
True`: an empty (falsy) OpenCitations author makes the check vacuously
true; otherwise it is substring containment.  `crossref_title` is
`crossref_data.get("title", [""])[0].lower()` guarded by list truthiness. -/
def validate_doi (doi : String) (oc : OcMeta) (cr : CrMeta) : ValidationResult :=
  let ot := pyLower oc.title
  let oa := pyLower oc.author
  let op := pyLower oc.publisher
  let ct := match cr.title with
    | [] => ""
    | t :: _ => pyLower t
  let ca := pyLower (String.intercalate ", " (cr.author.map fun a => a.1 ++ " " ++ a.2))
  let cp := pyLower cr.publisher
  let title_match := ot == ct
  let author_match := if oa == "" then true else listContains oa.toList ca.toList
  let publisher_match := op == cp
  { doi := doi, opencitations_title := ot, crossref_title := ct,
    title_match := title_match, opencitations_author := oa,
    crossref_author := ca, author_match := author_match,
    opencitations_publisher := op, crossref_publisher := cp,
    publisher_match := publisher_match,
    valid := title_match || (author_match && publisher_match) }

/-- Claim C10: with an empty OpenCitations author field, `author_match` is
vacuously true, so equal lower-cased publishers make the record valid — no
condition on the titles is involved. -/
theorem empty_oc_author_valid (doi : String) (oc : OcMeta) (cr : CrMeta)
    (ha : oc.author = "") :
    (validate_doi doi oc cr).author_match = true ∧
    (pyLower oc.publisher = pyLower cr.publisher →
      (validate_doi doi oc cr).valid = true) := by
  have h1 : pyLower oc.author = "" := by rw [ha]; rfl
  constructor
  · simp [validate_doi, h1]
  · intro hp
    simp [validate_doi, h1, hp]

/-- Witness for `empty_oc_author_valid`: differing titles, equal
lower-cased publishers, empty OpenCitations author — reported valid. -/
theorem empty_oc_author_valid_witness :
    (validate_doi "10.1/x" ⟨"t1", "", "pub"⟩ ⟨["t2"], [], "PUB"⟩).author_match = true ∧
    (validate_doi "10.1/x" ⟨"t1", "", "pub"⟩ ⟨["t2"], [], "PUB"⟩).valid = true ∧
    (validate_doi "10.1/x" ⟨"t1", "", "pub"⟩ ⟨["t2"], [], "PUB"⟩).title_match = false :=
  ⟨(empty_oc_author_valid "10.1/x" ⟨"t1", "", "pub"⟩ ⟨["t2"], [], "PUB"⟩ rfl).1,
    (empty_oc_author_valid "10.1/x" ⟨"t1", "", "pub"⟩ ⟨["t2"], [], "PUB"⟩ rfl).2
      (by decide),
    by decide⟩

/-! ## `citation_finder.py` — `merge_citing_and_cited_data`

`pd.merge(citing_df, cited_df, on="journal", how="outer", suffixes=
("citing", "cited"))`: keys matched on both sides produce one row per
pairing; keys present on only one side keep their own columns and leave
the other side columns empty (`NaN`, modelled as `none`); no key is
dropped. -/

structure CitingRow where
  journal : String
  citation : String
  citing_entity : String
deriving DecidableEq, Repr

structure CitedRow where
  journal : String
  citation : String
  cited_entity : String
deriving DecidableEq, Repr

/-- One row of `all_citations.csv`: the shared key plus the columns of
both sides, the overlapping `citation` column suffixed per pandas
`suffixes=("citing", "cited")`; `none` is `NaN`. -/
structure MergedRow where
  journal : String
  citationciting : Option String
  citing_entity : Option String
  citationcited : Option String
  cited_entity : Option String
deriving DecidableEq, Repr

/-- `SPARQLCitationExtractor.merge_citing_and_cited_data`: full outer join
on `journal`. -/
def merge_citing_and_cited_data (citing : List CitingRow) (cited : List CitedRow) :
    List MergedRow :=
  (citing.flatMap fun c =>
    match cited.filter (fun d => d.journal == c.journal) with
    | [] => [⟨c.journal, some c.citation, some c.citing_entity, none, none⟩]
    | m :: ms => (m :: ms).map fun d =>
        ⟨c.journal, some c.citation, some c.citing_entity,
          some d.citation, some d.cited_entity⟩)
  ++ ((cited.filter fun d => citing.all fun c => !(c.journal == d.journal)).map
      fun d => ⟨d.journal, none, none, some d.citation, some d.cited_entity⟩)

/-- Claim C8: the merge is a full outer join on the shared key — a key
present on only one side keeps its populated columns with the other side
empty and is never dropped, and one citing row plus one cited row sharing
key `j1` merge into exactly one combined row. -/
theorem merge_outer_join (citing : List CitingRow) (cited : List CitedRow) :
    (∀ c ∈ citing, (∀ d ∈ cited, d.journal ≠ c.journal) →
      (⟨c.journal, some c.citation, some c.citing_entity, none, none⟩ : MergedRow) ∈
        merge_citing_and_cited_data citing cited) ∧
    (∀ d ∈ cited, (∀ c ∈ citing, c.journal ≠ d.journal) →
      (⟨d.journal, none, none, some d.citation, some d.cited_entity⟩ : MergedRow) ∈
        merge_citing_and_cited_data citing cited) ∧
    merge_citing_and_cited_data [⟨"j1", "x", "c1"⟩] [⟨"j1", "y", "c2"⟩] =
      [⟨"j1", some "x", some "c1", some "y", some "c2"⟩] := by
  refine ⟨?_, ?_, by decide⟩
  · intro c hc hnone
    apply List.mem_append_left
    rw [List.mem_flatMap]
    refine ⟨c, hc, ?_⟩
    have hfil : cited.filter (fun d => d.journal == c.journal) = [] := by
      rw [List.filter_eq_nil_iff]
      intro d hd hbeq
      exact hnone d hd (eq_of_beq hbeq)
    rw [hfil]
    exact List.mem_singleton.mpr rfl
  · intro d hd hnone
    apply List.mem_append_right
    rw [List.mem_map]
    refine ⟨d, ?_, rfl⟩
    rw [List.mem_filter]
    refine ⟨hd, ?_⟩
    rw [List.all_eq_true]
    intro c hc
    simp only [Bool.not_eq_eq_eq_not, Bool.not_true, beq_eq_false_iff_ne, ne_eq]
    exact hnone c hc

/-- Witness for `merge_outer_join`: a citing-only key and a cited-only key
both survive the merge with the opposite columns empty. -/
theorem merge_outer_join_witness :
    (⟨"ja", some "x1", some "e1", none, none⟩ : MergedRow) ∈
      merge_citing_and_cited_data [⟨"ja", "x1", "e1"⟩] [⟨"jb", "x2", "e2"⟩] ∧
    (⟨"jb", none, none, some "x2", some "e2"⟩ : MergedRow) ∈
      merge_citing_and_cited_data [⟨"ja", "x1", "e1"⟩] [⟨"jb", "x2", "e2"⟩] :=
  ⟨(merge_outer_join [⟨"ja", "x1", "e1"⟩] [⟨"jb", "x2", "e2"⟩]).1
      ⟨"ja", "x1", "e1"⟩ (List.mem_singleton.mpr rfl) (by decide),
    (merge_outer_join [⟨"ja", "x1", "e1"⟩] [⟨"jb", "x2", "e2"⟩]).2.1
      ⟨"jb", "x2", "e2"⟩ (List.mem_singleton.mpr rfl) (by decide)⟩

/-! ## `cited_articles_metadata_gatherer.py`

`CrossRefProcessor.get_crossref_data` performs one request; every
`requests.RequestException` (timeout, connection failure, the non-2xx
statuses surfaced by `raise_for_status`, and — in current `requests` —
JSON decode failures) is caught and turned into the empty dict.  The
subsequent field extraction (`response.json().get("message", ...)` with an empty-dict default and the
`.get` chains below it) is *not* inside any handler for non-request
exceptions: applied to a decoded payload of an unexpected shape it raises
(e.g. `AttributeError` for `.get` on a non-dict), and that exception
propagates out of `process_data`, aborting the whole batch.  The network is
modelled as one `FetchOutcome` per seed. -/

/-- A JSON value as produced by `response.json()`. -/
inductive Json where
  | null
  | bool (b : Bool)
  | num (n : Int)
  | str (s : String)
  | arr (items : List Json)
  | obj (fields : List (String × Json))

/-- The uncaught Python exception classes the extraction code can raise. -/
inductive PyErr where
  | attributeError
  | typeError
  | keyError
  | indexError
deriving DecidableEq, Repr

/-- What one `requests.get` interaction yields: a caught request-level
failure (timeout / connection error / non-2xx / undecodable body), or a
decoded JSON payload. -/
inductive FetchOutcome where
  | requestError
  | payload (j : Json)

/-- Python truthiness of a JSON-decoded value. -/
def jsonTruthy : Json → Bool
  | .null => false
  | .bool b => b
  | .num n => !(n == 0)
  | .str s => !(s == "")
  | .arr items => !items.isEmpty
  | .obj fields => !fields.isEmpty

/-- Python `value.get(key, default)`: only dicts have `.get`; anything else
raises `AttributeError`. -/
def objGet (j : Json) (k : String) (dflt : Json) : Except PyErr Json :=
  match j with
  | .obj fields =>
      match fields.find? (fun f => f.1 == k) with
      | some f => .ok f.2
      | none => .ok dflt
  | _ => .error .attributeError

/-- Python `value[0]`: first element of a list, first character of a string,
`KeyError` on a dict (no key `0`), `TypeError` otherwise. -/
def pyIndexZero : Json → Except PyErr Json
  | .arr (x :: _) => .ok x
  | .arr [] => .error .indexError
  | .str s =>
      match s.toList with
      | c :: _ => .ok (.str (String.mk [c]))
      | [] => .error .indexError
  | .obj _ => .error .keyError
  | _ => .error .typeError

/-- Rendering used by the author f-string interpolation; scalar
values follow Python `str()`, nested containers are rendered elementwise
(no claim depends on the container text). -/
def jsonDisplay : Json → String
  | .null => "None"
  | .bool true => "True"
  | .bool false => "False"
  | .num n => toString n
  | .str s => s
  | .arr _ => "[...]"
  | .obj _ => "\x7b...\x7d"

/-- One author entry: the f-string interpolating `author.get("given", "")`
and `author.get("family", "")` joined by a space; a non-dict list element raises `AttributeError` on `.get`. -/
def authorPiece (a : Json) : Except PyErr String :=
  match a with
  | .obj _ => do
      let g ← objGet a "given" (.str "")
      let f ← objGet a "family" (.str "")
      pure (jsonDisplay g ++ " " ++ jsonDisplay f)
  | _ => .error .attributeError

/-- `"; ".join(f"..." for author in value)`: iterating a non-list value
either yields non-dict items (strings from a str or the keys of a dict → the
`.get` raises `AttributeError`) or raises `TypeError` outright. -/
def joinAuthors : Json → Except PyErr String
  | .arr items => do
      let pieces ← items.mapM authorPiece
      pure (String.intercalate "; " pieces)
  | .str s => if s == "" then .ok "" else .error .attributeError
  | .obj fields => if fields.isEmpty then .ok "" else .error .attributeError
  | _ => .error .typeError

/-- `data.get("title", [""])[0] if data.get("title") else "No Title
Available"`. -/
def getTitle (data : Json) : Except PyErr Json := do
  let tv ← objGet data "title" .null
  if jsonTruthy tv then
    let tv2 ← objGet data "title" (.arr [.str ""])
    pyIndexZero tv2
  else
    pure (.str "No Title Available")

/-- The dict returned by a successful `get_crossref_data`. -/
structure CrossrefRecord where
  doi : String
  title : Json
  publisher : Json
  issue : Json
  date_time : Json
  authors : String
  references : Json

/-- `CrossRefProcessor.get_crossref_data`: request-level failures are caught
(`.ok none` = the empty dict); shape errors during field extraction
propagate as `.error`. -/
def get_crossref_data (doi : String) (o : FetchOutcome) :
    Except PyErr (Option CrossrefRecord) :=
  match o with
  | .requestError => .ok none
  | .payload j => do
      let data ← objGet j "message" (.obj [])
      let title ← getTitle data
      let publisher ← objGet data "publisher" (.str "")
      let issue ← objGet data "issue" (.str "")
      let created ← objGet data "created" (.obj [])
      let date_time ← objGet created "date-time" (.str "")
      let av ← objGet data "author" (.arr [])
      let authors ← joinAuthors av
      let references ← objGet data "reference" (.arr [])
      pure (some ⟨doi, title, publisher, issue, date_time, authors, references⟩)

/-- One row of the output CSV written by `process_data` (fields read off
`crossref_data`; `volume` is never set by `get_crossref_data`, so its
`.get("volume", "")` default always applies). -/
structure CsvRow where
  primary_id : String
  id : String
  title : Json
  author : String
  pub_date : Json
  venue : String
  volume : String
  issue : Json
  page : String
  rowType : String
  publisher : Json
  editor : String

def csvRowOf (primary : String) (r : CrossrefRecord) : CsvRow :=
  { primary_id := primary, id := r.doi, title := r.title,
    author := r.authors, pub_date := r.date_time, venue := "",
    volume := "", issue := r.issue, page := "", rowType := "",
    publisher := r.publisher, editor := "" }

/-- One value of `references_data`. -/
structure RefsEntry where
  doi : String
  referenced_entities : Json

/-- Python dict assignment `m[k] = v`: replace in place if the key exists,
else append (insertion order preserved). -/
def assocSet (m : List (String × RefsEntry)) (k : String) (v : RefsEntry) :
    List (String × RefsEntry) :=
  if m.any (fun e => e.1 == k) then
    m.map (fun e => if e.1 == k then (k, v) else e)
  else m ++ [(k, v)]

/-- Python dict lookup, as an option. -/
def assocFind (m : List (String × RefsEntry)) (k : String) : Option RefsEntry :=
  (m.find? (fun e => e.1 == k)).map (·.2)

/-- The accumulating state of `process_data`: the `references_data` dict and
the `csv_rows` list. -/
structure GatherState where
  references_data : List (String × RefsEntry)
  csv_rows : List CsvRow

def emptyGatherState : GatherState := ⟨[], []⟩

/-- The body of the `if crossref_data:` branch of `process_data`: wholesale
(re)assignment of `references_data[primary_doi]` and appending one full CSV
row. -/
def storeStep (st : GatherState) (primary : String) (r : CrossrefRecord) :
    GatherState :=
  { references_data :=
      assocSet st.references_data primary ⟨primary, r.references⟩,
    csv_rows := st.csv_rows ++ [csvRowOf primary r] }

/-- The fetch loop of `process_data` over the seed batch, with the network
modelled as one `FetchOutcome` per seed.  A caught fetch failure yields the
empty dict, which is falsy, so the item is skipped; an uncaught extraction
error propagates, aborting the loop. -/
def process_data (st : GatherState) :
    List (String × FetchOutcome) → Except PyErr GatherState
  | [] => .ok st
  | (doi, o) :: rest => do
      let cr ← get_crossref_data doi o
      match cr with
      | some r => process_data (storeStep st doi r) rest
      | none => process_data st rest

/-! ## `citation_finder.py` — the query side

`query_sparql_citing` wraps the whole `sparql.query().convert()` and result
unpacking in `try/except Exception`, returning `None` on any failure; the
caller tests `if sparql_results:` (both `None` and the empty list are
falsy) and skips the journal, so a query failure never aborts the batch. -/

inductive SparqlOutcome where
  | queryError
  | results (bindings : List Json)

/-- `SPARQLCitationExtractor.query_sparql_citing`: the bindings on success,
`None` on any caught exception. -/
def query_sparql_citing (o : SparqlOutcome) : Option (List Json) :=
  match o with
  | .queryError => none
  | .results bs => some bs

/-- `result.get(key, \x7b\x7d).get("value", "")` on one binding. -/
def bindingField (b : Json) (k : String) : Except PyErr Json := do
  let v ← objGet b k (.obj [])
  objGet v "value" (.str "")

/-- The result-accumulation loop of `extract_citing_data` over the journal
column, the endpoint modelled as one `SparqlOutcome` per journal. -/
def extract_citing_rows (acc : List (String × Json × Json)) :
    List (String × SparqlOutcome) → Except PyErr (List (String × Json × Json))
  | [] => .ok acc
  | (j, o) :: rest =>
      match query_sparql_citing o with
      | none => extract_citing_rows acc rest
      | some bs =>
          if bs.isEmpty then extract_citing_rows acc rest
          else do
            let rows ← bs.mapM (fun b => do
              let c ← bindingField b "citation"
              let e ← bindingField b "citing_entity"
              pure (j, c, e))
            extract_citing_rows (acc ++ rows) rest

theorem assocFind_assocSet (m : List (String × RefsEntry)) (k : String)
    (v : RefsEntry) : assocFind (assocSet m k v) k = some v := by
  induction m with
  | nil => simp [assocSet, assocFind]
  | cons e tl ih =>
    by_cases he : e.1 = k
    · have hb : (e.1 == k) = true := beq_iff_eq.mpr he
      have hany : (e :: tl).any (fun x => x.1 == k) = true := by
        rw [List.any_cons, hb]
        rfl
      rw [assocSet, if_pos hany, List.map_cons, if_pos hb, assocFind]
      simp [List.find?]
    · have hb : (e.1 == k) = false := beq_eq_false_iff_ne.mpr he
      rw [assocSet]
      by_cases hany : tl.any (fun x => x.1 == k) = true
      · have hany2 : (e :: tl).any (fun x => x.1 == k) = true := by
          rw [List.any_cons, hb, hany]
          rfl
        rw [if_pos hany2, List.map_cons, if_neg (by simp [hb]), assocFind,
          List.find?]
        rw [hb]
        have := ih
        rw [assocSet, if_pos hany] at this
        rw [assocFind] at this
        exact this
      · have hany2 : ¬ (e :: tl).any (fun x => x.1 == k) = true := by
          rw [List.any_cons, hb]
          simpa using hany
        rw [if_neg hany2, List.cons_append, assocFind, List.find?, hb]
        have := ih
        rw [assocSet, if_neg hany] at this
        rw [assocFind] at this
        exact this

/-- Claim C5, counterexample: storing metadata for the same identifier
twice — first `(title "", publisher "P")`, then `(title "T",
publisher "")` — does not merge field-by-field.  The CSV store holds the
two rows verbatim (the second with its empty publisher) and no row
`(title "T", publisher "P")` exists anywhere. -/
theorem store_no_field_merge :
    ((storeStep (storeStep emptyGatherState "10.1/x"
          ⟨"10.1/x", .str "", .str "P", .str "", .str "", "", .arr []⟩)
        "10.1/x"
          ⟨"10.1/x", .str "T", .str "", .str "", .str "", "", .arr []⟩).csv_rows.map
      (fun row => (row.title, row.publisher)))
      = [(.str "", .str "P"), (.str "T", .str "")] ∧
    ¬ ((Json.str "T", Json.str "P") ∈
        ([(.str "", .str "P"), (.str "T", .str "")] :
          List (Json × Json))) := by
  constructor
  · rfl
  · intro hmem
    rcases List.mem_cons.mp hmem with h | h
    · rw [Prod.mk.injEq, Json.str.injEq, Json.str.injEq] at h
      exact absurd h.1 (by decide)
    · rcases List.mem_cons.mp h with h2 | h2
      · rw [Prod.mk.injEq, Json.str.injEq, Json.str.injEq] at h2
        exact absurd h2.2 (by decide)
      · cases h2

/-- Claim C5, amended: `process_data` performs no field-by-field merge.
Processing the same identifier twice appends both full CSV rows verbatim
(empty incoming fields included), and the `references_data` dict entry is
wholesale replaced by the second record — last write wins. -/
theorem store_overwrites_wholesale (st : GatherState) (d : String)
    (r1 r2 : CrossrefRecord) :
    (storeStep (storeStep st d r1) d r2).csv_rows
      = st.csv_rows ++ [csvRowOf d r1, csvRowOf d r2] ∧
    assocFind (storeStep (storeStep st d r1) d r2).references_data d
      = some ⟨d, r2.references⟩ := by
  constructor
  · simp [storeStep]
  · exact assocFind_assocSet _ _ _

/-- Claim C6, counterexample: a batch of two seeds where the first fetch
returns well-formed JSON of an unexpected shape (a top-level array, so
`.get("message", ...)` raises `AttributeError`) aborts the whole run — the
second, perfectly processable seed is never reached — while the second
seed alone processes fine. -/
theorem malformed_payload_aborts_batch :
    process_data emptyGatherState
        [("10.1/a", .payload (.arr [])),
          ("10.1/b", .payload (.obj [("message", .obj [])]))]
      = .error .attributeError ∧
    (process_data emptyGatherState
        [("10.1/b", .payload (.obj [("message", .obj [])]))]).toOption.isSome
      = true := by
  constructor
  · rfl
  · rfl

/-- Claim C6, amended: request-level failures (timeout, connection error,
non-2xx) are caught per item in both fetchers — `get_crossref_data` returns
the falsy empty dict and the item is skipped, `query_sparql_citing` returns
`None` and the journal is skipped — and the rest of the batch proceeds
unchanged; only a decoded payload of unexpected shape escapes the handlers
and aborts the batch. -/
theorem request_failures_skipped (st : GatherState) (d : String)
    (rest : List (String × FetchOutcome)) (acc : List (String × Json × Json))
    (j : String) (rest2 : List (String × SparqlOutcome)) :
    process_data st ((d, .requestError) :: rest) = process_data st rest ∧
    get_crossref_data d .requestError = .ok none ∧
    extract_citing_rows acc ((j, .queryError) :: rest2)
      = extract_citing_rows acc rest2 :=
  ⟨rfl, rfl, rfl⟩

end DoiCorrector
